import Mathlib

/-!
# Verification of the R2 historical-data upload pipeline

Shallow embedding of `scripts/upload_to_r2.py` (class `R2DataUploader` and the
`main` batch driver).  Python strings are Lean `String`s (ASCII case mapping),
Python dicts are insertion-ordered association lists, file contents are
`List Nat` byte sequences, and the external collaborators (S3 client, hashlib,
zstandard, pyarrow) are abstracted as an explicit environment of functions.
Fallible operations (`int(...)`, `datetime.strptime`) return `Option`.
-/

namespace UploadToR2

/-- Python `str.upper()` restricted to ASCII letters (the only case used by
the program: exchange tags and exchange tickers are ASCII). -/
def pyUpper (s : String) : String := String.mk (s.data.map Char.toUpper)

/-- Python `str.lower()` restricted to ASCII letters. -/
def pyLower (s : String) : String := String.mk (s.data.map Char.toLower)

/-- Python `s.split(sep)` for a one-character separator: splitting the empty
string yields `[""]`, adjacent separators yield empty fields. -/
def splitChar (sep : Char) : List Char → List (List Char)
  | [] => [[]]
  | c :: rest =>
    let r := splitChar sep rest
    if c = sep then [] :: r
    else
      match r with
      | h :: t => (c :: h) :: t
      | [] => [[c]]

/-- Python `s.split('_')` as a list of strings. -/
def pySplitU (s : String) : List String := (splitChar '_' s.data).map String.mk

/-- Helper for `pyReplace`: replace non-overlapping occurrences of `pat`
left to right; `fuel` bounds the recursion by the input length. -/
def pyReplaceAux (pat repl : List Char) : Nat → List Char → List Char
  | _, [] => []
  | 0, l => l
  | fuel + 1, c :: rest =>
    if (c :: rest).take pat.length = pat ∧ pat ≠ [] then
      repl ++ pyReplaceAux pat repl fuel ((c :: rest).drop pat.length)
    else
      c :: pyReplaceAux pat repl fuel rest

/-- Python `s.replace(pat, repl)` for a non-empty pattern (every call in the
program uses the literal patterns ".csv" and ".zst"). -/
def pyReplace (s pat repl : String) : String :=
  String.mk (pyReplaceAux pat.data repl.data s.data.length s.data)

/-- Python `dict` lookup (`d.get(k)`) over an insertion-ordered association
list; keys are unique by construction in all uses below. -/
def dictGet {β : Type} : List (String × β) → String → Option β
  | [], _ => none
  | (k, v) :: rest, key => if k = key then some v else dictGet rest key

/-- Python `dict` store (`d[k] = v`): overwrite in place if the key exists,
otherwise append at the end (Python dicts preserve insertion order). -/
def dictSet {β : Type} : List (String × β) → String → β → List (String × β)
  | [], key, v => [(key, v)]
  | (k, w) :: rest, key, v =>
    if k = key then (k, v) :: rest else (k, w) :: dictSet rest key v

/-- The `mapping` dict of `normalize_asset` (source lines 83-90). -/
def assetMapping : List (String × String) :=
  [("BTCUSDT", "XXBTZUSD"), ("BTCUSD", "XXBTZUSD"),
   ("ETHUSDT", "XETHZUSD"), ("ETHUSD", "XETHZUSD"),
   ("SOLUSDT", "SOLUSD"), ("SOLUSD", "SOLUSD")]

/-- `R2DataUploader.normalize_asset`: `mapping.get(asset.upper(), asset)`. -/
def normalize_asset (asset : String) : String :=
  match dictGet assetMapping (pyUpper asset) with
  | some v => v
  | none => asset

/-- The `mapping` dict of `normalize_timeframe` (source lines 95-105). -/
def timeframeMapping : List (String × String) :=
  [("1min", "1m"), ("5min", "5m"), ("15min", "15m"),
   ("1hour", "1h"), ("1h", "1h"), ("4hour", "4h"), ("4h", "4h"),
   ("1day", "1d"), ("1d", "1d")]

/-- `R2DataUploader.normalize_timeframe`: `mapping.get(timeframe.lower(), timeframe)`. -/
def normalize_timeframe (timeframe : String) : String :=
  match dictGet timeframeMapping (pyLower timeframe) with
  | some v => v
  | none => timeframe

/-- Python slice `s[i:j]` (for `0 ≤ i ≤ j`). -/
def pySlice (s : String) (i j : Nat) : String :=
  String.mk ((s.data.drop i).take (j - i))

/-- Python `int(s)` for non-negative decimal literals (the only shape fed to
`int` by this program: slices of digit-only date strings); `none` models the
`ValueError` raised on non-digit input. -/
def pyInt? (s : String) : Option Int :=
  if s.data ≠ [] ∧ s.data.all Char.isDigit then
    some (s.data.foldl (fun a c => a * 10 + ((c.toNat : Int) - 48)) 0)
  else none

/-- `R2DataUploader.determine_quarter`: year is `date_str[:4]`, month is
`int(date_str[4:6])`, quarter is `(month - 1) // 3 + 1` (Python floor
division = `Int.ediv` for the positive divisor 3). -/
def determine_quarter (date_str : String) : Option String :=
  let year := pySlice date_str 0 4
  match pyInt? (pySlice date_str 4 6) with
  | some month => some (year ++ "-Q" ++ toString ((month - 1) / 3 + 1))
  | none => none

/-! ## Calendar arithmetic (model of `datetime.strptime` + `timestamp()`) -/

/-- Proleptic-Gregorian leap-year test, as used by Python's `datetime`. -/
def isLeap (y : Int) : Bool :=
  y % 4 == 0 && (y % 100 != 0 || y % 400 == 0)

/-- Length of month `m` of year `y` (used by `strptime` date validation). -/
def daysInMonth (y m : Int) : Int :=
  if m = 2 then (if isLeap y then 29 else 28)
  else if m = 4 ∨ m = 6 ∨ m = 9 ∨ m = 11 then 30
  else 31

/-- Days from 1970-01-01 to the civil date `y-m-d` (proleptic Gregorian),
the standard closed-form days-from-civil computation performed inside
`datetime.timestamp()`.  Python `//` is floor division, which for the
positive constant divisors used here coincides with `Int.ediv`. -/
def daysFromCivil (y m d : Int) : Int :=
  let y2 := if m ≤ 2 then y - 1 else y
  let era := y2 / 400
  let yoe := y2 - era * 400
  let mp := if 2 < m then m - 3 else m + 9
  let doy := (153 * mp + 2) / 5 + d - 1
  let doe := yoe * 365 + yoe / 4 - yoe / 100 + doy
  era * 146097 + doe - 719468

/-- Decimal value of a digit string. -/
def digitsVal (l : List Char) : Int :=
  l.foldl (fun a c => a * 10 + ((c.toNat : Int) - 48)) 0

/-- `datetime.strptime(s, "%Y%m%d")` restricted to 8-character inputs (the
format this program feeds it): positional split into 4+2+2 digits, month in
1..12 and day within the month's length, else `ValueError` (`none`). -/
def parseYYYYMMDD (s : String) : Option (Int × Int × Int) :=
  if s.data.length = 8 ∧ s.data.all Char.isDigit then
    let y := digitsVal (s.data.take 4)
    let m := digitsVal ((s.data.drop 4).take 2)
    let d := digitsVal (s.data.drop 6)
    if 1 ≤ m ∧ m ≤ 12 ∧ 1 ≤ d ∧ d ≤ daysInMonth y m then some (y, m, d)
    else none
  else none

/-- `R2DataUploader.date_to_timestamp`:
`int(datetime.strptime(date_str, "%Y%m%d").timestamp() * 1000)`.
The parsed datetime is naive, so `timestamp()` interprets it in the
process's local timezone; `tz` is that zone's UTC offset in seconds at the
given date (0 when the process runs with TZ=UTC). -/
def date_to_timestamp (tz : Int) (date_str : String) : Option Int :=
  (parseYYYYMMDD date_str).map fun ymd =>
    (daysFromCivil ymd.1 ymd.2.1 ymd.2.2 * 86400 - tz) * 1000

/-! ### Independent (spec-level) calendar, used to check `daysFromCivil`:
day counts accumulated year by year from the epoch and month by month from
January, with nothing shared with the closed form above. -/

/-- 366 for leap years, 365 otherwise. -/
def daysInYear (y : Int) : Int := if isLeap y then 366 else 365

/-- Days from 1970-01-01 to (1970+k)-01-01, summed year by year. -/
def daysBeforeYearSpec : Nat → Int
  | 0 => 0
  | k + 1 => daysBeforeYearSpec k + daysInYear (1970 + k)

/-- Month lengths of a (non-)leap year, January first. -/
def monthLengths (leap : Bool) : List Int :=
  [31, if leap then 29 else 28, 31, 30, 31, 30, 31, 31, 30, 31, 30, 31]

/-- Days from `y-01-01` to `y-m-01`: sum of the lengths of the preceding
months. -/
def daysBeforeMonthSpec (leap : Bool) (m : Int) : Int :=
  ((monthLengths leap).take (m - 1).toNat).sum

/-- Spec-level day number of `y-m-d` relative to the epoch (for `y ≥ 1970`). -/
def epochDaySpec (y m d : Int) : Int :=
  daysBeforeYearSpec (y - 1970).toNat + daysBeforeMonthSpec (isLeap y) m + (d - 1)

/-- Unix milliseconds of UTC midnight of the date `y-m-d`. -/
def utcMidnightMs (y m d : Int) : Int := epochDaySpec y m d * 86400000

/-! ## Filename parsing (`parse_filename`, source lines 61-79) -/

/-- The relevant projections of a `pathlib.Path`: `stem` (file name without
the final suffix) and `suffix` (final extension including the dot). -/
structure PyPath where
  stem : String
  suffix : String
deriving DecidableEq, Repr, Inhabited

/-- `Path.name` = stem plus suffix. -/
def pyName (p : PyPath) : String := p.stem ++ p.suffix

/-- The dict returned by `parse_filename` (plus the `local_path` entry that
`scan_data_directory` adds before processing; `parse_filename` itself leaves
it empty). -/
structure FileInfo where
  exchange : String
  asset : String
  start_date : String
  end_date : String
  data_type : String
  timeframe : String
  format : String
  filename : String
  local_path : String
deriving DecidableEq, Repr, Inhabited

/-- The exchange tags the parser recognizes; the source hardcodes the single
comparison `parts[0].upper() == 'BINANCE'`. -/
def knownExchanges : List String := ["BINANCE"]

/-- `R2DataUploader.parse_filename`: split the stem on `_`, require at least
6 tokens with an upper-cased first token equal to `'BINANCE'`; normalize the
asset and timeframe tokens; `none` on no match. -/
def parse_filename (p : PyPath) : Option FileInfo :=
  match pySplitU p.stem with
  | p0 :: p1 :: p2 :: p3 :: p4 :: p5 :: _ =>
    if pyUpper p0 = "BINANCE" then
      some
        { exchange := p0
          asset := normalize_asset p1
          start_date := p2
          end_date := p3
          data_type := p4
          timeframe := normalize_timeframe p5
          format := pySlice p.suffix 1 p.suffix.data.length
          filename := pyName p
          local_path := "" }
    else none
  | _ => none

/-! ## Checksum, metadata, and the per-file pipeline -/

/-- The chunked read loop of `calculate_checksum`:
`for chunk in iter(lambda: f.read(4096), b''): sha256.update(chunk)`.
Feeding chunks to an incremental `hashlib` hasher digests their
concatenation, so the loop's contribution is the concatenation of the 4096
byte chunks; `fuel` bounds the recursion by the file length. -/
def readLoop : Nat → List Nat → List Nat
  | _, [] => []
  | 0, l => l
  | fuel + 1, l => l.take 4096 ++ readLoop fuel (l.drop 4096)

/-- `R2DataUploader.calculate_checksum` with the SHA-256 hex digest
abstracted as a function `H` on byte streams (hashlib is an external
collaborator): hash of the bytes fed chunk-by-chunk through the read loop. -/
def calculate_checksum (H : List Nat → String) (content : List Nat) : String :=
  H (readLoop content.length content)

/-- External collaborators and ambient state of one run: the abstract SHA-256
hex digest `H`, the zstd level-3 compressor `Z`, the CSV→parquet transcoder
(`convert_csv_to_parquet`'s content transformation), the network oracle
`uploadOk` saying whether `upload_to_r2` succeeds for a key, the parquet row
counter `bars` (`pq.read_table(...)`; keyed by path), the local UTC offset
`tz` in seconds, and `datetime.now().isoformat()` as `now`. -/
structure Env where
  tz : Int
  now : String
  H : List Nat → String
  Z : List Nat → List Nat
  transcode : List Nat → List Nat
  uploadOk : String → Bool
  bars : String → Nat

/-- The metadata dict built by `generate_metadata` (source lines 196-212). -/
structure Metadata where
  asset : String
  timeframe : String
  quarter : String
  startDate : Int
  endDate : Int
  bars : Nat
  dataTier : String
  source : String
  compressed : Bool
  compressionFormat : String
  compressionLevel : Nat
  sizeBytes : Nat
  checksumSHA256 : String
  uploadedAt : String
  version : String
deriving DecidableEq, Repr, Inhabited

/-- `R2DataUploader.generate_metadata`: size from the artifact, row count
from the parquet file at the path with `.zst` stripped, the three-way tier
classification (default basic, `trades` → standard, `book` → premium), and
the fixed compression fields.  `none` models the exception propagated from
`determine_quarter` / `date_to_timestamp` on malformed dates. -/
def generate_metadata (env : Env) (fi : FileInfo) (file_path : String)
    (checksum : String) (fileBytes : List Nat) : Option Metadata :=
  let file_size := fileBytes.length
  let num_bars := env.bars (pyReplace file_path ".zst" "")
  let data_tier :=
    if fi.data_type = "trades" then "TIER_3_STANDARD"
    else if fi.data_type = "book" then "TIER_1_PREMIUM"
    else "TIER_4_BASIC"
  match determine_quarter fi.start_date, date_to_timestamp env.tz fi.start_date,
      date_to_timestamp env.tz fi.end_date with
  | some quarter, some sd, some ed =>
    some
      { asset := fi.asset
        timeframe := fi.timeframe
        quarter := quarter
        startDate := sd
        endDate := ed
        bars := num_bars
        dataTier := data_tier
        source := fi.exchange
        compressed := true
        compressionFormat := "zstd"
        compressionLevel := 3
        sizeBytes := file_size
        checksumSHA256 := checksum
        uploadedAt := env.now
        version := "1.0" }
  | _, _, _ => none

/-- Observable remote-storage writes of one `process_and_upload` call, in
program order. -/
inductive Event where
  | uploadData (key : String) (bytes : List Nat) (success : Bool)
  | uploadMeta (key : String) (meta : Metadata)
deriving DecidableEq, Repr

/-- Observables of one `process_and_upload` call: the boolean return value,
the ordered remote writes, and the intermediate values the claims mention. -/
structure ProcResult where
  ok : Bool
  events : List Event
  checksum : String
  metadata : Metadata
  dataKey : String
  metadataKey : String
deriving DecidableEq, Repr

/-- Pointwise update of the local filesystem (path → byte content). -/
def updateFS (files : String → List Nat) (p : String) (c : List Nat) :
    String → List Nat :=
  fun q => if q = p then c else files q

/-- `R2DataUploader.process_and_upload` (source lines 238-290): transcode CSV
to parquet, optionally compress (`compress_file` writes `Z` of the parquet
bytes at `path + ".zst"`), checksum the artifact to be uploaded, build
metadata, derive the two remote keys, upload the data object, and only after
a successful data upload upload the metadata object; on data-upload failure
return `False` immediately.  Temp-file cleanup (source lines 284-288) writes
nothing remotely and is not tracked.  `none` models an uncaught exception
from metadata generation. -/
def process_and_upload (env : Env) (files : String → List Nat)
    (fi : FileInfo) (compress : Bool) : Option ProcResult :=
  let local_path := fi.local_path
  let parquet_path :=
    if fi.format = "csv" then pyReplace local_path ".csv" ".parquet"
    else local_path
  let files1 :=
    if fi.format = "csv" then
      updateFS files parquet_path (env.transcode (files local_path))
    else files
  let upload_file := if compress then parquet_path ++ ".zst" else parquet_path
  let files2 :=
    if compress then
      updateFS files1 (parquet_path ++ ".zst") (env.Z (files1 parquet_path))
    else files1
  let checksum := calculate_checksum env.H (files2 upload_file)
  match generate_metadata env fi upload_file checksum (files2 upload_file) with
  | none => none
  | some metadata =>
    let data_key :=
      metadata.asset ++ "/" ++ metadata.timeframe ++ "/" ++ metadata.quarter
        ++ ".parquet.zst"
    let metadata_key :=
      metadata.asset ++ "/" ++ metadata.timeframe ++ "/" ++ metadata.quarter
        ++ "_metadata.json"
    if env.uploadOk data_key then
      some
        { ok := true
          events := [Event.uploadData data_key (files2 upload_file) true,
                     Event.uploadMeta metadata_key metadata]
          checksum := checksum
          metadata := metadata
          dataKey := data_key
          metadataKey := metadata_key }
    else
      some
        { ok := false
          events := [Event.uploadData data_key (files2 upload_file) false]
          checksum := checksum
          metadata := metadata
          dataKey := data_key
          metadataKey := metadata_key }

/-- Whether `process_and_upload` runs to completion and returns `True`. -/
def procOk (env : Env) (files : String → List Nat) (compress : Bool)
    (fi : FileInfo) : Bool :=
  match process_and_upload env files fi compress with
  | some r => r.ok
  | none => false

/-- The content of the parquet artifact of a file (the transcoded bytes for
a CSV source, the source bytes otherwise); `process_and_upload` compresses
and uploads exactly these bytes. -/
def parquetBytesOf (env : Env) (files : String → List Nat) (fi : FileInfo) :
    List Nat :=
  if fi.format = "csv" then env.transcode (files fi.local_path)
  else files fi.local_path

/-! ## Index builder (`generate_index`, source lines 292-319) and the batch
driver loop of `main` (source lines 373-391) -/

/-- One entry of the per-timeframe list in `index.json`. -/
structure QEntry where
  quarter : String
  startDate : Int
  endDate : Int
deriving DecidableEq, Repr, Inhabited

/-- The nested `assets` dict: asset → timeframe → list of quarter entries. -/
abbrev AssetsMap : Type := List (String × List (String × List QEntry))

/-- The `index.json` dict. -/
structure Index where
  version : String
  generatedAt : String
  assets : AssetsMap
  totalAssets : Nat
  totalFiles : Nat
deriving DecidableEq, Repr, Inhabited

/-- The quarter entry derived from one processed descriptor (quarter from
the start date, both timestamps via `date_to_timestamp`); `none` models the
exception on malformed dates. -/
def entryOf (tz : Int) (fi : FileInfo) : Option QEntry :=
  match determine_quarter fi.start_date, date_to_timestamp tz fi.start_date,
      date_to_timestamp tz fi.end_date with
  | some q, some sd, some ed => some { quarter := q, startDate := sd, endDate := ed }
  | _, _, _ => none

/-- One iteration of the `generate_index` loop body: create the asset dict
and timeframe list if absent, append the entry at the end. -/
def insertIdx (assets : AssetsMap) (asset timeframe : String) (e : QEntry) :
    AssetsMap :=
  let inner := (dictGet assets asset).getD []
  let entries := (dictGet inner timeframe).getD []
  dictSet assets asset (dictSet inner timeframe (entries ++ [e]))

/-- The `generate_index` loop over the processed descriptors, starting from
the accumulated dict `acc`. -/
def buildAssets (tz : Int) (acc : AssetsMap) :
    List FileInfo → Option AssetsMap
  | [] => some acc
  | fi :: rest =>
    match entryOf tz fi with
    | none => none
    | some e => buildAssets tz (insertIdx acc fi.asset fi.timeframe e) rest

/-- `R2DataUploader.generate_index`: rebuild the nested mapping from the
processed descriptors; `totalAssets` is the number of asset keys and
`totalFiles` the number of processed descriptors. -/
def generate_index (tz : Int) (now : String) (processed : List FileInfo) :
    Option Index :=
  (buildAssets tz [] processed).map fun assets =>
    { version := "1.0"
      generatedAt := now
      assets := assets
      totalAssets := assets.length
      totalFiles := processed.length }

/-- The entries list the index holds for a given asset and timeframe
(empty when absent). -/
def entriesAt (assets : AssetsMap) (asset timeframe : String) : List QEntry :=
  (dictGet ((dictGet assets asset).getD []) timeframe).getD []

/-- The per-file loop of `main`: process each discovered file in order and
keep the descriptors whose `process_and_upload` returned `True`; a `False`
return moves on to the next file, an uncaught exception (`none`) kills the
whole run. -/
def runBatch (env : Env) (files : String → List Nat) (compress : Bool) :
    List FileInfo → Option (List FileInfo)
  | [] => some []
  | fi :: rest =>
    match process_and_upload env files fi compress with
    | none => none
    | some r =>
      match runBatch env files compress rest with
      | none => none
      | some l => some (if r.ok then fi :: l else l)

/-- The non-dry-run tail of `main`: run the batch, rebuild and publish the
index from the successfully processed descriptors, and report the final
`processed/discovered` summary counts. -/
def main_run (env : Env) (files : String → List Nat) (compress : Bool)
    (infos : List FileInfo) : Option (List FileInfo × Index × Nat × Nat) :=
  match runBatch env files compress infos with
  | none => none
  | some processed =>
    match generate_index env.tz env.now processed with
    | none => none
    | some idx => some (processed, idx, processed.length, infos.length)

/-! ## Named decompositions of `process_and_upload` (proved equal to the
inline definition below) -/

/-- The parquet artifact path chosen in step 1 of `process_and_upload`. -/
def parquetPathOf (fi : FileInfo) : String :=
  if fi.format = "csv" then pyReplace fi.local_path ".csv" ".parquet"
  else fi.local_path

/-- The path of the artifact that gets uploaded (step 2). -/
def uploadFileOf (fi : FileInfo) (compress : Bool) : String :=
  if compress then parquetPathOf fi ++ ".zst" else parquetPathOf fi

/-- The bytes of the artifact that gets uploaded: the compressed parquet
bytes when compression is on, the raw parquet bytes otherwise. -/
def uploadBytesOf (env : Env) (files : String → List Nat) (fi : FileInfo)
    (compress : Bool) : List Nat :=
  if compress then env.Z (parquetBytesOf env files fi)
  else parquetBytesOf env files fi

/-- The remote data key `f"{asset}/{timeframe}/{quarter}.parquet.zst"`. -/
def dataKeyFor (md : Metadata) : String :=
  md.asset ++ "/" ++ md.timeframe ++ "/" ++ md.quarter ++ ".parquet.zst"

/-- The remote metadata key `f"{asset}/{timeframe}/{quarter}_metadata.json"`. -/
def metaKeyFor (md : Metadata) : String :=
  md.asset ++ "/" ++ md.timeframe ++ "/" ++ md.quarter ++ "_metadata.json"

/-- Steps 5-7 of `process_and_upload`: derive the two remote keys, upload
the data object, and upload the metadata object only after a successful
data upload. -/
def finishUpload (env : Env) (metadata : Metadata) (uploadBytes : List Nat)
    (checksum : String) : ProcResult :=
  if env.uploadOk (dataKeyFor metadata) then
    { ok := true
      events := [Event.uploadData (dataKeyFor metadata) uploadBytes true,
                 Event.uploadMeta (metaKeyFor metadata) metadata]
      checksum := checksum
      metadata := metadata
      dataKey := dataKeyFor metadata
      metadataKey := metaKeyFor metadata }
  else
    { ok := false
      events := [Event.uploadData (dataKeyFor metadata) uploadBytes false]
      checksum := checksum
      metadata := metadata
      dataKey := dataKeyFor metadata
      metadataKey := metaKeyFor metadata }

/-- The metadata record `generate_metadata` produces on success, with the
date-derived fields given. -/
def mdSpec (env : Env) (fi : FileInfo) (path : String) (cs : String)
    (bytes : List Nat) (q : String) (sd ed : Int) : Metadata :=
  { asset := fi.asset
    timeframe := fi.timeframe
    quarter := q
    startDate := sd
    endDate := ed
    bars := env.bars (pyReplace path ".zst" "")
    dataTier :=
      if fi.data_type = "trades" then "TIER_3_STANDARD"
      else if fi.data_type = "book" then "TIER_1_PREMIUM"
      else "TIER_4_BASIC"
    source := fi.exchange
    compressed := true
    compressionFormat := "zstd"
    compressionLevel := 3
    sizeBytes := bytes.length
    checksumSHA256 := cs
    uploadedAt := env.now
    version := "1.0" }

/-! ## Concrete data for witness theorems -/

/-- Concrete environment for witnesses: every upload succeeds. -/
def envW : Env :=
  { tz := 0, now := "T", H := fun l => toString l.length,
    Z := fun l => 0 :: l, transcode := id, uploadOk := fun _ => true,
    bars := fun _ => 2 }

/-- Concrete environment for witnesses: every upload fails. -/
def envWF : Env :=
  { tz := 0, now := "T", H := fun l => toString l.length,
    Z := fun l => 0 :: l, transcode := id, uploadOk := fun _ => false,
    bars := fun _ => 2 }

/-- Concrete local filesystem for witnesses. -/
def filesW : String → List Nat := fun _ => [1, 2, 3]

/-- Concrete parquet OHLCV descriptor for witnesses. -/
def fiW : FileInfo :=
  { exchange := "BINANCE", asset := "XXBTZUSD", start_date := "20240501",
    end_date := "20240503", data_type := "ohlcv", timeframe := "1m",
    format := "parquet", filename := "f.parquet",
    local_path := "/d/f.parquet" }

/-- Concrete `book`-type descriptor for witnesses. -/
def fiBookW : FileInfo := { fiW with data_type := "book" }

/-- A second concrete descriptor with a different asset (hence a different
remote key) for batch witnesses. -/
def fi2W : FileInfo :=
  { fiW with
    asset := "XETHZUSD"
    local_path := "/d/g.parquet"
    filename := "g.parquet" }

/-- Concrete environment for batch witnesses: exactly the upload of the
second asset's data key fails. -/
def envW1F : Env :=
  { envW with uploadOk := fun k => k != "XETHZUSD/1m/2024-Q2.parquet.zst" }

/-! ## Helper lemmas -/

theorem dictGet_mem_values {β : Type} {l : List (String × β)} {k : String}
    {v : β} (h : dictGet l k = some v) : v ∈ l.map Prod.snd := by
  induction l with
  | nil => simp [dictGet] at h
  | cons p rest ih =>
    obtain ⟨pk, pv⟩ := p
    simp only [dictGet] at h
    split at h
    · cases h; simp
    · simpa using Or.inr (ih h)

theorem normalize_asset_value_fixed {k v : String}
    (h : dictGet assetMapping k = some v) : normalize_asset v = v := by
  have hv := dictGet_mem_values h
  simp only [assetMapping, List.map, List.mem_cons, List.not_mem_nil, or_false] at hv
  rcases hv with rfl | rfl | rfl | rfl | rfl | rfl <;> decide

theorem normalize_timeframe_value_fixed {k v : String}
    (h : dictGet timeframeMapping k = some v) : normalize_timeframe v = v := by
  have hv := dictGet_mem_values h
  simp only [timeframeMapping, List.map, List.mem_cons, List.not_mem_nil,
    or_false] at hv
  rcases hv with rfl | rfl | rfl | rfl | rfl | rfl | rfl | rfl | rfl <;> decide

/-- `generate_metadata` written with its success record named. -/
theorem generate_metadata_eq (env : Env) (fi : FileInfo) (path cs : String)
    (bytes : List Nat) :
    generate_metadata env fi path cs bytes =
      match determine_quarter fi.start_date,
          date_to_timestamp env.tz fi.start_date,
          date_to_timestamp env.tz fi.end_date with
      | some q, some sd, some ed => some (mdSpec env fi path cs bytes q sd ed)
      | _, _, _ => none := rfl

/-- `process_and_upload` decomposed into artifact preparation, metadata
generation, and the upload phase. -/
theorem process_and_upload_eq (env : Env) (files : String → List Nat)
    (fi : FileInfo) (compress : Bool) :
    process_and_upload env files fi compress =
      (generate_metadata env fi (uploadFileOf fi compress)
        (calculate_checksum env.H (uploadBytesOf env files fi compress))
        (uploadBytesOf env files fi compress)).map
        (fun md => finishUpload env md (uploadBytesOf env files fi compress)
          (calculate_checksum env.H (uploadBytesOf env files fi compress))) := by
  by_cases hc : fi.format = "csv" <;> by_cases hz : compress <;>
    simp [process_and_upload, uploadBytesOf, uploadFileOf, parquetBytesOf,
      parquetPathOf, updateFS, hc, hz] <;>
    cases generate_metadata env fi _ _ _ <;>
    simp [finishUpload, dataKeyFor, metaKeyFor] <;>
    split <;> rfl

theorem finishUpload_metadata (env : Env) (md : Metadata) (b : List Nat)
    (cs : String) : (finishUpload env md b cs).metadata = md := by
  unfold finishUpload
  split <;> rfl

theorem finishUpload_checksum (env : Env) (md : Metadata) (b : List Nat)
    (cs : String) : (finishUpload env md b cs).checksum = cs := by
  unfold finishUpload
  split <;> rfl

theorem finishUpload_dataKey (env : Env) (md : Metadata) (b : List Nat)
    (cs : String) : (finishUpload env md b cs).dataKey = dataKeyFor md := by
  unfold finishUpload
  split <;> rfl

theorem finishUpload_metadataKey (env : Env) (md : Metadata) (b : List Nat)
    (cs : String) : (finishUpload env md b cs).metadataKey = metaKeyFor md := by
  unfold finishUpload
  split <;> rfl

theorem finishUpload_ok (env : Env) (md : Metadata) (b : List Nat)
    (cs : String) :
    (finishUpload env md b cs).ok = env.uploadOk (dataKeyFor md) := by
  unfold finishUpload
  split <;> simp_all

theorem finishUpload_events (env : Env) (md : Metadata) (b : List Nat)
    (cs : String) :
    (finishUpload env md b cs).events =
      if env.uploadOk (dataKeyFor md) then
        [Event.uploadData (dataKeyFor md) b true,
         Event.uploadMeta (metaKeyFor md) md]
      else
        [Event.uploadData (dataKeyFor md) b false] := by
  unfold finishUpload
  split <;> simp_all

/-! ## C4 -/

/-- C4: the asset and timeframe normalizers are total functions (plain
lookups with an identity fallback, so they never raise — any input missed
by the case-insensitive lookup is returned unchanged) and idempotent on
every input string, with `normalize_asset "btcusdt" = "XXBTZUSD"` and
`normalize_asset "DOGEUSDT" = "DOGEUSDT"` (pass-through). -/
theorem normalize_idempotent_total :
    (∀ x, normalize_asset (normalize_asset x) = normalize_asset x) ∧
    (∀ x, normalize_timeframe (normalize_timeframe x) = normalize_timeframe x) ∧
    (∀ x, dictGet assetMapping (pyUpper x) = none → normalize_asset x = x) ∧
    (∀ x, dictGet timeframeMapping (pyLower x) = none →
      normalize_timeframe x = x) ∧
    normalize_asset "btcusdt" = "XXBTZUSD" ∧
    normalize_asset "DOGEUSDT" = "DOGEUSDT" := by
  refine ⟨fun x => ?_, fun x => ?_, fun x h => by simp [normalize_asset, h],
    fun x h => by simp [normalize_timeframe, h], by decide, by decide⟩
  · cases h : dictGet assetMapping (pyUpper x) with
    | none =>
      have hx : normalize_asset x = x := by simp [normalize_asset, h]
      rw [hx]
      exact hx
    | some v =>
      have hx : normalize_asset x = v := by simp [normalize_asset, h]
      rw [hx]
      exact normalize_asset_value_fixed h
  · cases h : dictGet timeframeMapping (pyLower x) with
    | none =>
      have hx : normalize_timeframe x = x := by simp [normalize_timeframe, h]
      rw [hx]
      exact hx
    | some v =>
      have hx : normalize_timeframe x = v := by simp [normalize_timeframe, h]
      rw [hx]
      exact normalize_timeframe_value_fixed h

/-- Witness for C4 at the concrete unmapped timeframe `"2hour"`. -/
theorem normalize_idempotent_total_witness :
    dictGet timeframeMapping (pyLower "2hour") = none ∧
    normalize_timeframe "2hour" = "2hour" :=
  ⟨by decide, normalize_idempotent_total.2.2.2.1 "2hour" (by decide)⟩

/-! ## C10 -/

/-- C10: an input missed by the (case-insensitive) lookup is returned
verbatim with its original casing, so `"dogeusdt"` and `"DOGEUSDT"` are
both passed through unchanged and produce different remote data keys. -/
theorem normalize_passthrough_preserves_case :
    (∀ x, dictGet assetMapping (pyUpper x) = none → normalize_asset x = x) ∧
    (∀ x, dictGet timeframeMapping (pyLower x) = none →
      normalize_timeframe x = x) ∧
    normalize_asset "dogeusdt" = "dogeusdt" ∧
    normalize_asset "DOGEUSDT" = "DOGEUSDT" ∧
    pyUpper "dogeusdt" = pyUpper "DOGEUSDT" ∧
    normalize_asset "dogeusdt" ++ "/1m/2024-Q2.parquet.zst" ≠
      normalize_asset "DOGEUSDT" ++ "/1m/2024-Q2.parquet.zst" := by
  refine ⟨fun x h => ?_, fun x h => ?_, by decide, by decide, by decide, by decide⟩
  · simp [normalize_asset, h]
  · simp [normalize_timeframe, h]

/-- Witness for C10 at the concrete pass-through input `"dogeusdt"`. -/
theorem normalize_passthrough_preserves_case_witness :
    dictGet assetMapping (pyUpper "dogeusdt") = none ∧
    normalize_asset "dogeusdt" = "dogeusdt" :=
  ⟨by decide, normalize_passthrough_preserves_case.1 "dogeusdt" (by decide)⟩

/-! ## C7 -/

/-- C7: the metadata builder classifies the data tier as a fixed three-way
function of `data_type`: `book` yields `TIER_1_PREMIUM`, `trades` yields
`TIER_3_STANDARD`, and every other value yields `TIER_4_BASIC`. -/
theorem dataTier_classification (env : Env) (fi : FileInfo)
    (path cs : String) (bytes : List Nat) (md : Metadata)
    (h : generate_metadata env fi path cs bytes = some md) :
    (fi.data_type = "book" → md.dataTier = "TIER_1_PREMIUM") ∧
    (fi.data_type = "trades" → md.dataTier = "TIER_3_STANDARD") ∧
    (fi.data_type ≠ "book" → fi.data_type ≠ "trades" →
      md.dataTier = "TIER_4_BASIC") := by
  unfold generate_metadata at h
  repeat' split at h
  all_goals cases h
  all_goals refine ⟨fun h1 => ?_, fun h1 => ?_, fun h1 h2 => ?_⟩ <;> simp_all

/-- Witness for C7 at a concrete `book`-type descriptor. -/
theorem dataTier_classification_witness :
    ∃ md, generate_metadata envW fiBookW "/d/f.zst" "cs" [1, 2] = some md ∧
      md.dataTier = "TIER_1_PREMIUM" := by
  have h : generate_metadata envW fiBookW "/d/f.zst" "cs" [1, 2] =
      some ((generate_metadata envW fiBookW "/d/f.zst" "cs" [1, 2]).getD
        default) := by decide
  exact ⟨_, h, (dataTier_classification _ _ _ _ _ _ h).1 rfl⟩

/-! ## C9 -/

/-- C9: for every processed file — with or without `--no-compress` — the
generated metadata reports `compressed = True`, `compressionFormat = "zstd"`
and `compressionLevel = 3`, and the remote data key is
`asset/timeframe/quarter.parquet.zst` (so it always ends in
`.parquet.zst`), regardless of the `compress` flag. -/
theorem metadata_compression_fields_constant (env : Env)
    (files : String → List Nat) (fi : FileInfo) (compress : Bool)
    (r : ProcResult) (hr : process_and_upload env files fi compress = some r) :
    r.metadata.compressed = true ∧
    r.metadata.compressionFormat = "zstd" ∧
    r.metadata.compressionLevel = 3 ∧
    ∃ q, determine_quarter fi.start_date = some q ∧
      r.dataKey =
        fi.asset ++ "/" ++ fi.timeframe ++ "/" ++ q ++ ".parquet.zst" := by
  rw [process_and_upload_eq] at hr
  obtain ⟨md, hmd, hfin⟩ := Option.map_eq_some'.mp hr
  rw [generate_metadata_eq] at hmd
  split at hmd
  case _ q sd ed hq hsd hed =>
    cases hmd
    subst hfin
    refine ⟨?_, ?_, ?_, q, hq, ?_⟩ <;>
      simp [finishUpload_metadata, finishUpload_dataKey, dataKeyFor, mdSpec]
  case _ => cases hmd

/-- Witness for C9: the pipeline run with compression disabled on an
uncompressed parquet artifact still stamps zstd metadata and a `.zst` key. -/
theorem metadata_compression_fields_constant_witness :
    ∃ r, process_and_upload envW filesW fiW false = some r ∧
      (r.metadata.compressed = true ∧
       r.metadata.compressionFormat = "zstd" ∧
       r.metadata.compressionLevel = 3 ∧
       ∃ q, determine_quarter fiW.start_date = some q ∧
         r.dataKey = fiW.asset ++ "/" ++ fiW.timeframe ++ "/" ++ q ++
           ".parquet.zst") := by
  have h : process_and_upload envW filesW fiW false =
      some ((process_and_upload envW filesW fiW false).getD
        ⟨false, [], "", default, "", ""⟩) := by decide
  exact ⟨_, h, metadata_compression_fields_constant _ _ _ _ _ h⟩

/-! ## C3 -/

/-- C3: the parser returns a descriptor exactly when splitting the stem on
`_` yields at least 6 tokens whose first token upper-cases to a known
exchange tag, and on success the six documented fields are exactly the
first six tokens (with asset and timeframe normalized); otherwise it
returns no match rather than an error. -/
theorem parse_filename_spec (p : PyPath) :
    ((parse_filename p).isSome ↔
      6 ≤ (pySplitU p.stem).length ∧
        pyUpper ((pySplitU p.stem).getD 0 "") ∈ knownExchanges) ∧
    (∀ fi, parse_filename p = some fi →
      fi.exchange = (pySplitU p.stem).getD 0 "" ∧
      fi.asset = normalize_asset ((pySplitU p.stem).getD 1 "") ∧
      fi.start_date = (pySplitU p.stem).getD 2 "" ∧
      fi.end_date = (pySplitU p.stem).getD 3 "" ∧
      fi.data_type = (pySplitU p.stem).getD 4 "" ∧
      fi.timeframe = normalize_timeframe ((pySplitU p.stem).getD 5 "")) := by
  unfold parse_filename
  rcases h : pySplitU p.stem with _ | ⟨a, _ | ⟨b, _ | ⟨c, _ | ⟨d, _ | ⟨e,
    _ | ⟨f, rest⟩⟩⟩⟩⟩⟩ <;>
    simp only [h, List.length_nil, List.length_cons, List.getD_cons_zero,
      List.getD_cons_succ, knownExchanges, List.mem_singleton]
  · exact ⟨by simp, by simp⟩
  · exact ⟨by simp, by simp⟩
  · exact ⟨by simp, by simp⟩
  · exact ⟨by simp, by simp⟩
  · exact ⟨by simp, by simp⟩
  · exact ⟨by simp, by simp⟩
  · constructor
    · split
      case isTrue hcond =>
        simp only [Option.isSome_some, true_iff]
        exact ⟨by omega, hcond⟩
      case isFalse hcond =>
        simp only [Option.isSome_none, Bool.false_eq_true, false_iff]
        intro hc
        exact hcond hc.2
    · intro fi hfi
      split at hfi
      · cases hfi
        exact ⟨rfl, rfl, rfl, rfl, rfl, rfl⟩
      · cases hfi

/-- Witness for C3: the documented example filename parses to the six
expected fields. -/
theorem parse_filename_spec_witness :
    ∃ fi, parse_filename
        ⟨"BINANCE_BTCUSDT_20240501_20240503_ohlcv_1min", ".csv"⟩ = some fi ∧
      fi.exchange = "BINANCE" ∧ fi.asset = "XXBTZUSD" ∧
      fi.start_date = "20240501" ∧ fi.end_date = "20240503" ∧
      fi.data_type = "ohlcv" ∧ fi.timeframe = "1m" := by
  have h : parse_filename
      ⟨"BINANCE_BTCUSDT_20240501_20240503_ohlcv_1min", ".csv"⟩ =
      some ((parse_filename
        ⟨"BINANCE_BTCUSDT_20240501_20240503_ohlcv_1min", ".csv"⟩).getD
          default) := by decide
  have hf := (parse_filename_spec
    ⟨"BINANCE_BTCUSDT_20240501_20240503_ohlcv_1min", ".csv"⟩).2 _ h
  refine ⟨_, h, ?_⟩
  simpa using hf

/-! ## C6 -/

/-- C6: for every date string of the form `YYYYMMDD` (4 leading characters,
then a 2-character month field that `int()` accepts, then the rest),
`determine_quarter` returns `"{year}-Q{((month-1)//3)+1}"`, and in
particular maps `"20240501"` to `"2024-Q2"`, `"20241231"` to `"2024-Q4"`
and `"20240101"` to `"2024-Q1"`. -/
theorem determine_quarter_formula (a b c : List Char) (m : Int)
    (ha : a.length = 4) (hb : b.length = 2)
    (hm : pyInt? (String.mk b) = some m) :
    determine_quarter (String.mk (a ++ b ++ c)) =
      some (String.mk a ++ "-Q" ++ toString ((m - 1) / 3 + 1)) ∧
    determine_quarter "20240501" = some "2024-Q2" ∧
    determine_quarter "20241231" = some "2024-Q4" ∧
    determine_quarter "20240101" = some "2024-Q1" := by
  refine ⟨?_, by decide, by decide, by decide⟩
  have e1 : pySlice (String.mk (a ++ b ++ c)) 0 4 = String.mk a := by
    simp only [pySlice, List.drop_zero, Nat.sub_zero]
    congr 1
    rw [List.append_assoc]
    exact List.take_left' ha
  have e2 : pySlice (String.mk (a ++ b ++ c)) 4 6 = String.mk b := by
    simp only [pySlice]
    congr 1
    rw [List.append_assoc, List.drop_left' ha]
    norm_num
    exact List.take_left' hb
  unfold determine_quarter
  rw [e1, e2, hm]

/-- Witness for C6 at the decomposition of `"20240501"`. -/
theorem determine_quarter_formula_witness :
    pyInt? (String.mk ['0', '5']) = some 5 ∧
    determine_quarter (String.mk (['2', '0', '2', '4'] ++ ['0', '5'] ++
      ['0', '1'])) =
      some (String.mk ['2', '0', '2', '4'] ++ "-Q" ++
        toString (((5 : Int) - 1) / 3 + 1)) :=
  ⟨by decide,
    (determine_quarter_formula ['2', '0', '2', '4'] ['0', '5'] ['0', '1'] 5
      (by decide) (by decide) (by decide)).1⟩

/-! ## C5: calendar correctness of `daysFromCivil` against the spec-level
calendar, and the local-vs-UTC behaviour of `date_to_timestamp` -/

/-- Division of an integer by 400 split into quotient and remainder. -/
theorem eraYoe (x : Int) :
    ∃ e r, x / 400 = e ∧ x - e * 400 = r ∧ 0 ≤ r ∧ r < 400 ∧
      x = 400 * e + r := by
  refine ⟨x / 400, x - x / 400 * 400, rfl, rfl, by omega, by omega, by omega⟩

/-- Advancing January 1st by one year adds exactly the year's length. -/
theorem daysFromCivil_jan1_succ (y : Int) :
    daysFromCivil (y + 1) 1 1 = daysFromCivil y 1 1 + daysInYear y := by
  simp only [daysFromCivil, daysInYear]
  norm_num
  obtain ⟨e1, r1, he1, hr1, hb1, hb1', hx1⟩ := eraYoe y
  obtain ⟨e2, r2, he2, hr2, hb2, hb2', hx2⟩ := eraYoe (y - 1)
  rw [he1, hr1, he2, hr2]
  by_cases hl : isLeap y <;>
    simp only [hl, if_true, if_false, Bool.false_eq_true] <;>
    simp only [isLeap, Bool.and_eq_true, Bool.or_eq_true, beq_iff_eq,
      bne_iff_ne, Bool.not_eq_true] at hl <;>
    (by_cases hbd : r2 = 399 <;>
      [ (have hee : e1 = e2 + 1 := by omega
         have hrr : r1 = 0 := by omega
         subst hee; subst hrr; omega);
        (have hee : e1 = e2 := by omega
         have hrr : r1 = r2 + 1 := by omega
         subst hee; subst hrr; omega)])

/-- `daysFromCivil` of January 1st agrees with the year-by-year sum. -/
theorem daysFromCivil_jan1_spec :
    ∀ k : Nat, daysFromCivil (1970 + (k : Int)) 1 1 = daysBeforeYearSpec k
  | 0 => by decide
  | k + 1 => by
    have h1 : (1970 : Int) + ((k + 1 : Nat) : Int) = (1970 + (k : Int)) + 1 := by
      push_cast
      ring
    rw [h1, daysFromCivil_jan1_succ, daysFromCivil_jan1_spec k]
    simp [daysBeforeYearSpec]

set_option maxHeartbeats 1600000 in
/-- `daysFromCivil` within a year is January 1st plus the month-by-month
sum of the preceding months plus the day offset. -/
theorem daysFromCivil_month (y m d : Int) (hm1 : 1 ≤ m) (hm2 : m ≤ 12) :
    daysFromCivil y m d =
      daysFromCivil y 1 1 + daysBeforeMonthSpec (isLeap y) m + (d - 1) := by
  obtain ⟨e1, r1, he1, hr1, hb1, hb1', hx1⟩ := eraYoe y
  obtain ⟨e2, r2, he2, hr2, hb2, hb2', hx2⟩ := eraYoe (y - 1)
  interval_cases m <;>
    simp only [daysFromCivil, daysBeforeMonthSpec, monthLengths] <;>
    simp <;>
    (try simp only [he1, hr1, he2, hr2]) <;>
    by_cases hl : isLeap y <;>
      (try simp only [hl, if_true, if_false, Bool.false_eq_true]) <;>
      simp only [isLeap, Bool.and_eq_true, Bool.or_eq_true, beq_iff_eq,
        bne_iff_ne, Bool.not_eq_true] at hl <;>
      (by_cases hbd : r2 = 399 <;>
        [ (have hee : e1 = e2 + 1 := by omega
           have hrr : r1 = 0 := by omega
           subst hee; subst hrr; omega);
          (have hee : e1 = e2 := by omega
           have hrr : r1 = r2 + 1 := by omega
           subst hee; subst hrr; omega)])

/-- The closed-form day number computed inside `timestamp()` agrees with
the independently defined spec-level calendar for every date from 1970 on. -/
theorem daysFromCivil_eq_spec (y m d : Int) (hy : 1970 ≤ y) (hm1 : 1 ≤ m)
    (hm2 : m ≤ 12) : daysFromCivil y m d = epochDaySpec y m d := by
  obtain ⟨k, rfl⟩ : ∃ k : Nat, y = 1970 + (k : Int) :=
    ⟨(y - 1970).toNat, by omega⟩
  rw [daysFromCivil_month _ _ _ hm1 hm2, daysFromCivil_jan1_spec k]
  unfold epochDaySpec
  have ht : ((1970 + (k : Int)) - 1970).toNat = k := by omega
  rw [ht]

/-- Inversion for `parseYYYYMMDD`: a successful parse satisfies the
month/day validity bounds checked by `strptime`. -/
theorem parseYYYYMMDD_bounds {s : String} {y m d : Int}
    (h : parseYYYYMMDD s = some (y, m, d)) :
    1 ≤ m ∧ m ≤ 12 ∧ 1 ≤ d ∧ d ≤ daysInMonth y m := by
  simp only [parseYYYYMMDD] at h
  split at h
  · split at h
    · cases h
      assumption
    · cases h
  · cases h

/-- C5 counterexample: the claim that `date_to_timestamp` always returns
the UTC-midnight timestamp is false — running with a local UTC offset of
+3600 seconds (e.g. CET in winter) shifts the result away from UTC
midnight of 2024-01-01. -/
theorem date_to_timestamp_not_utc_counterexample :
    date_to_timestamp 3600 "20240101" ≠ some (utcMidnightMs 2024 1 1) := by
  decide

/-- C5 (amended): for every valid `YYYYMMDD` date from 1970 on,
`date_to_timestamp` returns the Unix milliseconds of that date at *local*
midnight — the UTC-midnight milliseconds minus `1000 · tz` where `tz` is
the local UTC offset in seconds — and therefore coincides with UTC
midnight exactly when the process's offset is zero. -/
theorem date_to_timestamp_local_midnight (tz : Int) (s : String)
    (y m d : Int) (hp : parseYYYYMMDD s = some (y, m, d)) (hy : 1970 ≤ y) :
    date_to_timestamp tz s =
      some (utcMidnightMs y m d - 1000 * tz) ∧
    date_to_timestamp 0 s = some (utcMidnightMs y m d) := by
  obtain ⟨hm1, hm2, hd1, hd2⟩ := parseYYYYMMDD_bounds hp
  have hd : daysFromCivil y m d = epochDaySpec y m d :=
    daysFromCivil_eq_spec y m d hy hm1 hm2
  constructor
  · simp only [date_to_timestamp, hp, Option.map_some', Option.some.injEq,
      utcMidnightMs, hd]
    ring
  · simp only [date_to_timestamp, hp, Option.map_some', Option.some.injEq,
      utcMidnightMs, hd]
    ring

/-- Witness for C5 at `"20240501"` with a +3600 s local offset. -/
theorem date_to_timestamp_local_midnight_witness :
    parseYYYYMMDD "20240501" = some (2024, 5, 1) ∧
    date_to_timestamp 3600 "20240501" =
      some (utcMidnightMs 2024 5 1 - 1000 * 3600) ∧
    date_to_timestamp 0 "20240501" = some (utcMidnightMs 2024 5 1) :=
  ⟨by decide,
    (date_to_timestamp_local_midnight 3600 "20240501" 2024 5 1 (by decide)
      (by decide)).1,
    (date_to_timestamp_local_midnight 3600 "20240501" 2024 5 1 (by decide)
      (by decide)).2⟩

/-! ## C2 -/

/-- The chunked read loop reproduces the whole content once the fuel covers
the length: each iteration feeds the next 4096-byte chunk. -/
theorem readLoop_eq : ∀ (fuel : Nat) (l : List Nat), l.length ≤ fuel →
    readLoop fuel l = l
  | _, [], _ => by simp [readLoop]
  | 0, c :: rest, h => by simp at h
  | fuel + 1, c :: rest, h => by
    have hlen : ((c :: rest).drop 4096).length ≤ fuel := by
      simp only [List.length_drop, List.length_cons]
      simp only [List.length_cons] at h
      omega
    simp only [readLoop, readLoop_eq fuel ((c :: rest).drop 4096) hlen]
    exact List.take_append_drop 4096 (c :: rest)

/-- Streaming the file through the fixed-size-chunk loop hashes exactly the
full byte stream. -/
theorem calculate_checksum_eq (H : List Nat → String) (content : List Nat) :
    calculate_checksum H content = H content := by
  unfold calculate_checksum
  rw [readLoop_eq content.length content le_rfl]

/-- C2: with compression on, the stored checksum is the digest of the exact
compressed byte stream that is uploaded (computed by streaming it in
fixed-size chunks), it is copied verbatim into the metadata, and — whenever
the digests of the compressed and uncompressed artifacts differ — it is not
the digest of the uncompressed parquet bytes. -/
theorem checksum_over_compressed_stream (env : Env)
    (files : String → List Nat) (fi : FileInfo) (r : ProcResult)
    (hr : process_and_upload env files fi true = some r)
    (hne : env.H (env.Z (parquetBytesOf env files fi)) ≠
      env.H (parquetBytesOf env files fi)) :
    (∀ bytes, calculate_checksum env.H bytes = env.H bytes) ∧
    r.checksum = env.H (env.Z (parquetBytesOf env files fi)) ∧
    r.metadata.checksumSHA256 = r.checksum ∧
    (∃ b, r.events.head? =
      some (Event.uploadData r.dataKey (env.Z (parquetBytesOf env files fi)) b)) ∧
    r.checksum ≠ env.H (parquetBytesOf env files fi) := by
  rw [process_and_upload_eq] at hr
  obtain ⟨md, hmd, hfin⟩ := Option.map_eq_some'.mp hr
  subst hfin
  have hub : uploadBytesOf env files fi true =
      env.Z (parquetBytesOf env files fi) := by
    simp [uploadBytesOf]
  rw [generate_metadata_eq] at hmd
  split at hmd
  case _ q sd ed hq hsd hed =>
    cases hmd
    have hcs : (finishUpload env
        (mdSpec env fi (uploadFileOf fi true)
          (calculate_checksum env.H (uploadBytesOf env files fi true))
          (uploadBytesOf env files fi true) q sd ed)
        (uploadBytesOf env files fi true)
        (calculate_checksum env.H (uploadBytesOf env files fi true))).checksum =
        env.H (env.Z (parquetBytesOf env files fi)) := by
      rw [finishUpload_checksum, hub, calculate_checksum_eq]
    refine ⟨calculate_checksum_eq env.H, hcs, ?_, ?_, ?_⟩
    · rw [finishUpload_checksum, finishUpload_metadata]
      simp [mdSpec]
    · rw [finishUpload_events, finishUpload_dataKey]
      split
      · exact ⟨true, by simp [hub]⟩
      · exact ⟨false, by simp [hub]⟩
    · rw [hcs]
      exact hne
  case _ => cases hmd

/-- Witness for C2: a concrete run whose compressed digest differs from
the uncompressed digest. -/
theorem checksum_over_compressed_stream_witness :
    ∃ r, process_and_upload envW filesW fiW true = some r ∧
      envW.H (envW.Z (parquetBytesOf envW filesW fiW)) ≠
        envW.H (parquetBytesOf envW filesW fiW) ∧
      r.checksum = envW.H (envW.Z (parquetBytesOf envW filesW fiW)) ∧
      r.checksum ≠ envW.H (parquetBytesOf envW filesW fiW) := by
  have hr : process_and_upload envW filesW fiW true =
      some ((process_and_upload envW filesW fiW true).getD
        ⟨false, [], "", default, "", ""⟩) := by decide
  have hne : envW.H (envW.Z (parquetBytesOf envW filesW fiW)) ≠
      envW.H (parquetBytesOf envW filesW fiW) := by decide
  have h := checksum_over_compressed_stream envW filesW fiW _ hr hne
  exact ⟨_, hr, hne, h.2.1, h.2.2.2.2⟩

/-! ## C1 -/

/-- The batch loop of `main` never aborts on a `False` return: when it
finishes, the processed list is exactly the discovered list filtered by
per-file success. -/
theorem runBatch_filter (env : Env) (files : String → List Nat)
    (compress : Bool) :
    ∀ (infos processed : List FileInfo),
      runBatch env files compress infos = some processed →
      processed = infos.filter (procOk env files compress)
  | [], processed, h => by
    simp only [runBatch] at h
    cases h
    rfl
  | fi :: rest, processed, h => by
    simp only [runBatch] at h
    cases hp : process_and_upload env files fi compress with
    | none => rw [hp] at h; cases h
    | some r =>
      rw [hp] at h
      cases hb : runBatch env files compress rest with
      | none => rw [hb] at h; cases h
      | some l =>
        rw [hb] at h
        cases h
        rw [List.filter_cons]
        have hok : procOk env files compress fi = r.ok := by
          simp [procOk, hp]
        rw [hok, runBatch_filter env files compress rest l hb]

/-- The batch loop runs to completion as soon as every per-file call runs
to completion (a `False` return is not an exception). -/
theorem runBatch_total (env : Env) (files : String → List Nat)
    (compress : Bool) :
    ∀ infos : List FileInfo,
      (∀ g ∈ infos, (process_and_upload env files g compress).isSome) →
      ∃ processed, runBatch env files compress infos = some processed
  | [], _ => ⟨[], rfl⟩
  | fi :: rest, hall => by
    obtain ⟨r, hr⟩ := Option.isSome_iff_exists.mp (hall fi (by simp))
    obtain ⟨l, hl⟩ := runBatch_total env files compress rest
      (fun g hg => hall g (by simp [hg]))
    exact ⟨if r.ok then fi :: l else l, by simp only [runBatch, hr, hl]⟩

/-- C1: the data object is uploaded before the metadata object; when the
data upload fails the call returns `False` with the failed data write as
its only remote event (no metadata write), the file is excluded from the
processed list that feeds the index, and the loop still processes every
other file of the batch. -/
theorem publisher_order_and_failure_isolation (env : Env)
    (files : String → List Nat) (compress : Bool) (infos : List FileInfo)
    (fi : FileInfo) (r : ProcResult)
    (hr : process_and_upload env files fi compress = some r)
    (hall : ∀ g ∈ infos, (process_and_upload env files g compress).isSome) :
    (r.ok = false → ∃ b, r.events = [Event.uploadData r.dataKey b false]) ∧
    (r.ok = true → ∃ b, r.events = [Event.uploadData r.dataKey b true,
      Event.uploadMeta r.metadataKey r.metadata]) ∧
    ∃ processed, runBatch env files compress infos = some processed ∧
      processed = infos.filter (procOk env files compress) ∧
      (r.ok = false → fi ∉ processed) := by
  obtain ⟨processed, hproc⟩ := runBatch_total env files compress infos hall
  have hfilter := runBatch_filter env files compress infos processed hproc
  rw [process_and_upload_eq] at hr
  obtain ⟨md, hmd, hfin⟩ := Option.map_eq_some'.mp hr
  subst hfin
  refine ⟨?_, ?_, processed, hproc, hfilter, ?_⟩
  · intro hok
    rw [finishUpload_ok] at hok
    refine ⟨uploadBytesOf env files fi compress, ?_⟩
    rw [finishUpload_events, finishUpload_dataKey, hok]
    simp
  · intro hok
    rw [finishUpload_ok] at hok
    refine ⟨uploadBytesOf env files fi compress, ?_⟩
    rw [finishUpload_events, finishUpload_dataKey, finishUpload_metadataKey,
      finishUpload_metadata, hok]
    simp
  · intro hok
    have hpo : procOk env files compress fi = false := by
      rw [procOk, process_and_upload_eq, hmd]
      simpa using hok
    rw [hfilter]
    intro hmem
    rw [List.mem_filter] at hmem
    rw [hpo] at hmem
    exact Bool.false_ne_true hmem.2

/-- Witness for C1: a one-file batch whose upload fails — the call returns
`False`, its only remote event is the failed data write, and the file is
excluded from the processed list. -/
theorem publisher_order_witness :
    ∃ r, process_and_upload envWF filesW fiW true = some r ∧
      r.ok = false ∧
      (r.ok = false → ∃ b, r.events = [Event.uploadData r.dataKey b false]) ∧
      ∃ processed, runBatch envWF filesW true [fiW] = some processed ∧
        processed = [fiW].filter (procOk envWF filesW true) ∧
        (r.ok = false → fiW ∉ processed) := by
  have hr : process_and_upload envWF filesW fiW true =
      some ((process_and_upload envWF filesW fiW true).getD
        ⟨false, [], "", default, "", ""⟩) := by decide
  have hall : ∀ g ∈ [fiW], (process_and_upload envWF filesW g true).isSome := by
    decide
  have h := publisher_order_and_failure_isolation envWF filesW true [fiW]
    fiW _ hr hall
  exact ⟨_, hr, by decide, h.1, h.2.2⟩

/-! ## C8 -/

theorem dictGet_dictSet {β : Type} (l : List (String × β)) (k k' : String)
    (v : β) :
    dictGet (dictSet l k v) k' = if k = k' then some v else dictGet l k' := by
  induction l with
  | nil => simp [dictGet, dictSet]
  | cons p rest ih =>
    obtain ⟨pk, pv⟩ := p
    simp only [dictSet]
    by_cases hpk : pk = k
    · subst hpk
      by_cases hk' : pk = k' <;> simp [hk', dictGet]
    · by_cases hk' : pk = k' <;> by_cases hkk' : k = k' <;>
        simp_all [dictGet, dictSet]

theorem entriesAt_insertIdx (assets : AssetsMap) (a t a' t' : String)
    (e : QEntry) :
    entriesAt (insertIdx assets a t e) a' t' =
      if a = a' ∧ t = t' then entriesAt assets a' t' ++ [e]
      else entriesAt assets a' t' := by
  unfold entriesAt insertIdx
  rw [dictGet_dictSet]
  by_cases ha : a = a'
  · subst ha
    rw [if_pos rfl]
    simp only [Option.getD_some, true_and]
    rw [dictGet_dictSet]
    by_cases ht : t = t'
    · subst ht
      simp
    · simp [ht]
  · simp [ha]

theorem buildAssets_entries (tz : Int) :
    ∀ (l : List FileInfo) (acc assets : AssetsMap),
      buildAssets tz acc l = some assets →
      ∀ a t, entriesAt assets a t =
        entriesAt acc a t ++
          (l.filter (fun g => decide (g.asset = a ∧ g.timeframe = t))).filterMap
            (entryOf tz)
  | [], acc, assets, h => by
    simp only [buildAssets] at h
    cases h
    simp
  | fi :: rest, acc, assets, h => by
    simp only [buildAssets] at h
    cases he : entryOf tz fi with
    | none => rw [he] at h; cases h
    | some e =>
      rw [he] at h
      intro a t
      have ih := buildAssets_entries tz rest
        (insertIdx acc fi.asset fi.timeframe e) assets h a t
      rw [ih, entriesAt_insertIdx, List.filter_cons]
      by_cases hc : fi.asset = a ∧ fi.timeframe = t
      · simp [hc, he, List.filterMap_cons, List.append_assoc]
      · simp [hc]

/-- Inversion for `generate_index`: the rebuilt index counts exactly the
processed descriptors and groups exactly their quarter entries under each
asset/timeframe pair. -/
theorem generate_index_spec (tz : Int) (now : String)
    (processed : List FileInfo) (idx : Index)
    (h : generate_index tz now processed = some idx) :
    idx.totalFiles = processed.length ∧
    ∀ a t, entriesAt idx.assets a t =
      (processed.filter
        (fun g => decide (g.asset = a ∧ g.timeframe = t))).filterMap
        (entryOf tz) := by
  unfold generate_index at h
  obtain ⟨assets, hb, hidx⟩ := Option.map_eq_some'.mp h
  subst hidx
  refine ⟨rfl, fun a t => ?_⟩
  have hacc := buildAssets_entries tz processed [] assets hb a t
  simpa [entriesAt, dictGet] using hacc

/-- C8: in a batch where every per-file call runs to completion and exactly
one file's upload fails, the rebuilt index's `totalFiles` is `N-1`, its
nested mapping aggregates exactly the quarter entries of the `N-1`
successfully published descriptors, and the final summary reports
`(N-1)/N` processed. -/
theorem batch_one_failure_index (env : Env) (files : String → List Nat)
    (compress : Bool) (infos processed : List FileInfo) (idx : Index)
    (s1 s2 : Nat)
    (hone : (infos.filter
      (fun g => !(procOk env files compress g))).length = 1)
    (hm : main_run env files compress infos = some (processed, idx, s1, s2)) :
    idx.totalFiles = infos.length - 1 ∧
    s1 = infos.length - 1 ∧ s2 = infos.length ∧
    processed = infos.filter (procOk env files compress) ∧
    ∀ a t, entriesAt idx.assets a t =
      ((infos.filter (procOk env files compress)).filter
        (fun g => decide (g.asset = a ∧ g.timeframe = t))).filterMap
        (entryOf env.tz) := by
  unfold main_run at hm
  split at hm
  · cases hm
  · rename_i pr hrb
    split at hm
    · cases hm
    · rename_i ix hgi
      cases hm
      have hfl := runBatch_filter env files compress infos _ hrb
      have hgs := generate_index_spec env.tz env.now _ _ hgi
      have htot := List.length_eq_length_filter_add
        (l := infos) (procOk env files compress)
      refine ⟨?_, ?_, rfl, hfl, fun a t => ?_⟩
      · rw [hgs.1, hfl]
        omega
      · rw [hfl]
        omega
      · rw [hgs.2 a t, hfl]

/-- Witness for C8: a two-file batch in which exactly the second file's
upload fails yields an index with one file and a 1/2 summary. -/
theorem batch_one_failure_index_witness :
    (([fiW, fi2W]).filter
      (fun g => !(procOk envW1F filesW true g))).length = 1 ∧
    ∃ pr idx s1 s2,
      main_run envW1F filesW true [fiW, fi2W] = some (pr, idx, s1, s2) ∧
      idx.totalFiles = [fiW, fi2W].length - 1 ∧
      s1 = [fiW, fi2W].length - 1 ∧ s2 = [fiW, fi2W].length := by
  have hone : (([fiW, fi2W]).filter
      (fun g => !(procOk envW1F filesW true g))).length = 1 := by decide
  have hm : main_run envW1F filesW true [fiW, fi2W] =
      some ((main_run envW1F filesW true [fiW, fi2W]).getD default) := by rfl
  have h := batch_one_failure_index envW1F filesW true [fiW, fi2W] _ _ _ _
    hone hm
  exact ⟨hone, _, _, _, _, hm, h.1, h.2.1, h.2.2.1⟩

end UploadToR2
